import Mathlib

/-!
# Civic-Track issue lifecycle: a shallow embedding

This file embeds the moderation workflow of the Civic-Track server
(`src/backend/server.js`, the local-storage server variant
`src/unnamed/part_000`, and the schemas in `src/unnamed/part_001`) as
executable Lean definitions, and proves the specified properties of the
issue lifecycle: submission, listing/aggregation, status transition,
cascading user deletion, the admin authorization gate, and the stored
evidence file names.

The persistent MongoDB collections are modelled as lists held in a
`Store` record; Mongo `_id` values are modelled by a `Nat` field `id`
assigned from a monotone counter, so that insertion order agrees with
ascending `id` (the ordering the spec relies on).  `findOne` /
`findByIdAndUpdate` / `findOneAndDelete` become first-match operations
on those lists; `find(filter)` becomes `List.filter`; `.sort({_id:-1})`
becomes an insertion sort by descending `id`.
-/

namespace CivicTrack

/-- An issue record, after the `issueSchema` of `src/unnamed/part_001`
(fields `photo`, `location`, `emailid`, `category`, `issue`,
`description`, `date`, `status`), plus the store-assigned `id`. -/
structure Issue where
  id : Nat
  photo : String
  location : String
  emailid : String
  category : String
  issue : String
  description : String
  date : String
  status : String
deriving Repr, DecidableEq

/-- A user account of the external identity collaborator:
`{email, name, password}`. -/
structure User where
  email : String
  name : String
  password : String
deriving Repr, DecidableEq

/-- The shared mutable state: the issue collection, the user collection,
and the counter that hands out the next issue `id` (modelling Mongo's
monotone `_id` assignment). -/
structure Store where
  issues : List Issue
  users : List User
  nextId : Nat
deriving Repr, DecidableEq

/-- The body of a `POST /api/issues` request.  The handler reads
`location`, `emailid`, `category`, `issue` and `description`; a
caller-supplied `status` field may be present but is never read by the
handler in `src/backend/server.js` lines 171-180. -/
structure IssueReq where
  location : String
  emailid : String
  category : String
  issue : String
  description : String
  status : Option String
deriving Repr, DecidableEq

/-- The `POST /api/issues` handler (`src/backend/server.js` lines
155-188).  `file` is `none` when no file reached the handler (the
`!req.file` guard answers 400), and `some url` when a file was stored
and resolved to the URL `url` (`req.file.path || req.file.url ||
req.file.secure_url`; the empty string is falsy in JavaScript, so
`url = ""` takes the 500 branch and persists nothing).  On success the
new issue is appended with `status := "pending"` hard-coded.  Returns
the HTTP status code and the resulting store. -/
def postIssues (file : Option String) (req : IssueReq) (date : String)
    (st : Store) : Nat × Store :=
  match file with
  | none => (400, st)
  | some url =>
    if url = "" then (500, st)
    else
      let newIssue : Issue :=
        { id := st.nextId
          photo := url
          location := req.location
          emailid := req.emailid
          category := req.category
          issue := req.issue
          description := req.description
          date := date
          status := "pending" }
      (201, { st with issues := st.issues ++ [newIssue], nextId := st.nextId + 1 })

/-- The read-side aggregation shared by the four aggregated listing
endpoints (`src/backend/server.js` lines 194-205 and clones): resolve
`user.findOne({ email: item.emailid })` and attach the user's `name`,
or the literal `"Anonymous User"` when no account matches. -/
def attachUsername (users : List User) (i : Issue) : Issue × String :=
  match users.find? (fun u => u.email == i.emailid) with
  | some u => (i, u.name)
  | none => (i, "Anonymous User")

/-- One step of the insertion sort that models `.sort({ _id: -1 })`:
place `a` before the first element whose `id` does not exceed `a.id`. -/
def insertDescById (a : Issue) : List Issue → List Issue
  | [] => [a]
  | b :: l => if b.id ≤ a.id then a :: b :: l else b :: insertDescById a l

/-- Sort a list of issues by descending `id`, modelling Mongo's
`.sort({ _id: -1 })` cursor modifier. -/
def sortByIdDesc : List Issue → List Issue
  | [] => []
  | a :: l => insertDescById a (sortByIdDesc l)

/-- The `GET /api/issues` listing (`src/backend/server.js` lines
190-210): all issues, sorted by descending `id`, each with the
aggregated `username`. -/
def getIssues (st : Store) : List (Issue × String) :=
  (sortByIdDesc st.issues).map (attachUsername st.users)

/-- The `GET /api/issues/status/:status` listing (`src/backend/server.js`
lines 213-234): issues filtered by `status`, sorted by descending `id`,
aggregated. -/
def getIssuesByStatus (status : String) (st : Store) : List (Issue × String) :=
  (sortByIdDesc (st.issues.filter (fun i => i.status == status))).map
    (attachUsername st.users)

/-- The `GET /api/issues/user/:emailid?status=` listing
(`src/backend/server.js` lines 237-262): issues of one submitter,
optionally further filtered by `status` (`if (status)` means an empty
query string is treated as absent), sorted by descending `id`,
aggregated. -/
def getIssuesByUser (emailid : String) (status : Option String)
    (st : Store) : List (Issue × String) :=
  let base := st.issues.filter (fun i => i.emailid == emailid)
  let filtered :=
    match status with
    | some s => if s = "" then base else base.filter (fun i => i.status == s)
    | none => base
  (sortByIdDesc filtered).map (attachUsername st.users)

/-- The `GET /api/issues/accepted` listing (`src/backend/server.js`
lines 274-295): accepted issues, sorted by descending `id`, aggregated. -/
def getIssuesAccepted (st : Store) : List (Issue × String) :=
  (sortByIdDesc (st.issues.filter (fun i => i.status == "accepted"))).map
    (attachUsername st.users)

/-- The `GET /pending` handler (`src/backend/server.js` lines 265-272):
`issue.find({ status: "pending" })` with no sort and no aggregation,
answered as raw records. -/
def getPending (st : Store) : List Issue :=
  st.issues.filter (fun i => i.status == "pending")

/-- The `PATCH /api/issues/:id/status` handler (`src/backend/server.js`
lines 300-315): `findByIdAndUpdate(id, { status }, { new: true })`.
If no issue carries `idv`, answer 404 and leave the store alone;
otherwise overwrite that issue's `status` with the caller-supplied
string — no validation against the status set or the current state —
and return the updated record.  Returns the HTTP status code, the
returned record when any, and the resulting store. -/
def patchIssueStatus (idv : Nat) (status : String) (st : Store) :
    Nat × Option Issue × Store :=
  match st.issues.find? (fun i => i.id == idv) with
  | none => (404, none, st)
  | some i =>
    (200, some { i with status := status },
      { st with
          issues := st.issues.map
            (fun k => if k.id == idv then { k with status := status } else k) })

/-- Modelled from the spec: the `verifyAdmin` middleware is imported by
`src/backend/server.js` from `./middleware/authadmin.js`, a file that is
not among the sources; per the spec's Authorization Gate, a token is
signed with the server's secret and carries an expiry, verification is
stateless, a request with no `Authorization` header fails with the
missing-credentials error (401), and a token whose signature or expiry
check fails yields the invalid-token error (403).  A token is modelled
by the secret it was signed with, the role claim, and its expiry
instant. -/
structure Token where
  secret : String
  role : String
  exp : Nat
deriving Repr, DecidableEq

/-- Modelled from the spec: stateless token verification — the signature
check is that the token was signed with the server's secret, and the
expiry check is that the current instant is before the token's expiry. -/
def verifyToken (secret : String) (now : Nat) (t : Token) : Bool :=
  t.secret == secret && now < t.exp

/-- The `Authorization` header of a request: absent, or carrying a
bearer token. -/
inductive Auth where
  | noHeader
  | bearer (t : Token)
deriving Repr, DecidableEq

/-- The six moderation-sensitive routes of `src/backend/server.js`, the
ones registered with the `verifyAdmin` middleware: `GET /api/issues`,
`PATCH /api/issues/:id/status`, `GET /api/users/count`,
`GET /api/users/search`, `DELETE /api/users/:email`, and
`GET /api/admin/verify`. -/
inductive AdminRoute where
  | listIssues
  | patchStatus (idv : Nat) (status : String)
  | usersCount
  | usersSearch (name : Option String)
  | delUser (email : String)
  | adminVerify
deriving Repr, DecidableEq

/-- The `DELETE /api/users/:email` handler (`src/backend/server.js`
lines 345-363): `findOneAndDelete({ email })` — when no user matches,
answer 404 and touch nothing; otherwise remove that user and then
`issue.deleteMany({ emailid: email })`.  Returns the HTTP status code
and the resulting store. -/
def deleteUserByEmail (email : String) (st : Store) : Nat × Store :=
  match st.users.find? (fun u => u.email == email) with
  | none => (404, st)
  | some _ =>
    (200,
      { st with
          users := st.users.eraseP (fun u => u.email == email)
          issues := st.issues.filter (fun i => !(i.emailid == email)) })

/-- The protected handlers behind the gate, each reduced to the HTTP
status code it answers and the store it leaves behind (`src/backend/server.js`:
lines 190-210, 300-315, 318-326, 329-342, 345-363, 365-376).  The search
handler's `if (!name)` guard treats an absent or empty (falsy) query as
missing and answers 400. -/
def handleAdmin : AdminRoute → Store → Nat × Store
  | .listIssues, st => (200, st)
  | .patchStatus idv s, st =>
    let r := patchIssueStatus idv s st
    (r.1, r.2.2)
  | .usersCount, st => (200, st)
  | .usersSearch name, st =>
    (match name with
     | none => (400, st)
     | some n => if n = "" then (400, st) else (200, st))
  | .delUser email, st => deleteUserByEmail email st
  | .adminVerify, st => (200, st)

/-- A request to a moderation-sensitive route as routed by
`src/backend/server.js`: the `verifyAdmin` middleware (modelled from the
spec) runs first — 401 with no `Authorization` header, 403 when
verification fails — and only on success does the registered handler
run. -/
def serveAdmin (secret : String) (now : Nat) (a : Auth) (r : AdminRoute)
    (st : Store) : Nat × Store :=
  match a with
  | .noHeader => (401, st)
  | .bearer t => if verifyToken secret now t then handleAdmin r st else (403, st)

/-- The moderation-sensitive routes as the legacy server variant
`src/unnamed/part_000` registers them: `GET /api/issues`,
`PATCH /api/issues/:id/status`, `GET /api/users/count`,
`GET /api/users/search`, and `DELETE /api/users/:email` — that variant
has no `/api/admin/verify` route and no middleware at all. -/
inductive LegacyRoute where
  | listIssues
  | patchStatus (idv : Nat) (status : String)
  | usersCount
  | usersSearch (name : Option String)
  | delUser (email : String)
deriving Repr, DecidableEq

/-- The legacy variant's moderation handlers (`src/unnamed/part_000`
lines 127-300), reduced to the status code answered and the store left
behind, exactly as `handleAdmin` reduces the gated ones: the handler
bodies are identical in the two variants. -/
def handleLegacy : LegacyRoute → Store → Nat × Store
  | .listIssues, st => (200, st)
  | .patchStatus idv s, st =>
    let r := patchIssueStatus idv s st
    (r.1, r.2.2)
  | .usersCount, st => (200, st)
  | .usersSearch name, st =>
    (match name with
     | none => (400, st)
     | some n => if n = "" then (400, st) else (200, st))
  | .delUser email, st => deleteUserByEmail email st

/-- A request to a moderation-sensitive route as routed by
`src/unnamed/part_000`: no `verifyAdmin` (or any other) middleware is
registered on these routes, the `Authorization` header is never
consulted, and the handler runs directly whatever `a` is. -/
def serveLegacy (_a : Auth) (r : LegacyRoute) (st : Store) : Nat × Store :=
  handleLegacy r st

/-- Node's `path.extname` for the uploaded file's original name as the
local-disk storage backend uses it (`src/unnamed/part_000` line 40): the
suffix of the name starting at its last dot, or the empty string when
the name has no dot or its only dot leads the name. -/
def extname (name : String) : String :=
  let l := name.toList
  match ((List.range l.length).filter (fun i => l.get? i == some '.')).getLast? with
  | none => ""
  | some 0 => ""
  | some i => String.mk (l.drop i)

/-- The stored file name produced by the local-disk storage backend
(`src/unnamed/part_000` lines 38-41): `Date.now() + path.extname(file.originalname)`
— JavaScript coerces the millisecond timestamp to its decimal string and
appends the original extension. -/
def storedName (now : Nat) (originalname : String) : String :=
  Nat.repr now ++ extname originalname

/-- The status set of the moderation lifecycle. -/
def statusSet : List String := ["pending", "accepted", "rejected"]

/-- The store-wide status invariant claimed by the spec: every persisted
issue's `status` belongs to the three-element set. -/
def statusOk (st : Store) : Prop :=
  ∀ i ∈ st.issues, i.status ∈ statusSet

instance (st : Store) : Decidable (statusOk st) := by
  unfold statusOk
  infer_instance

/-- Decimal digit characters of a number, most significant first: the
list of characters `Nat.repr` produces. -/
def decChars (n : Nat) : List Char :=
  if n < 10 then [Nat.digitChar n]
  else decChars (n / 10) ++ [Nat.digitChar (n % 10)]
termination_by n
decreasing_by simp_wf; omega

/-- Numeric value of a decimal digit character. -/
def decVal (c : Char) : Nat := c.toNat - Char.toNat '0'

/-- Decode a most-significant-first decimal digit string. -/
def ofDec (l : List Char) : Nat := l.foldl (fun a c => 10 * a + decVal c) 0

theorem decChars_lt (n : Nat) (h : n < 10) : decChars n = [Nat.digitChar n] := by
  rw [decChars, if_pos h]

theorem decChars_ge (n : Nat) (h : 10 ≤ n) :
    decChars n = decChars (n / 10) ++ [Nat.digitChar (n % 10)] := by
  rw [decChars, if_neg (by omega)]

theorem toDigitsCore_eq_decChars (fuel : Nat) :
    ∀ (n : Nat) (ds : List Char), n < fuel →
      Nat.toDigitsCore 10 fuel n ds = decChars n ++ ds := by
  induction fuel with
  | zero => intro n ds h; omega
  | succ f ih =>
    intro n ds h
    show (if n / 10 = 0 then Nat.digitChar (n % 10) :: ds
          else Nat.toDigitsCore 10 f (n / 10) (Nat.digitChar (n % 10) :: ds)) =
        decChars n ++ ds
    by_cases h10 : n / 10 = 0
    · have hlt : n < 10 := by omega
      have hmod : n % 10 = n := by omega
      rw [if_pos h10, decChars_lt n hlt, hmod]
      rfl
    · have hge : 10 ≤ n := by omega
      rw [if_neg h10, ih (n / 10) _ (by omega), decChars_ge n hge]
      simp

theorem repr_eq_decChars (n : Nat) : Nat.repr n = String.mk (decChars n) := by
  show (Nat.toDigitsCore 10 (n + 1) n []).asString = String.mk (decChars n)
  rw [toDigitsCore_eq_decChars (n + 1) n [] (by omega)]
  simp [List.asString]

theorem decVal_digitChar (d : Nat) (h : d < 10) :
    decVal (Nat.digitChar d) = d := by
  interval_cases d <;> rfl

theorem ofDec_decChars (n : Nat) : ofDec (decChars n) = n := by
  induction n using Nat.strong_induction_on with
  | _ n ih =>
    by_cases h : n < 10
    · rw [decChars_lt n h]
      show 10 * 0 + decVal (Nat.digitChar n) = n
      rw [decVal_digitChar n h]
      omega
    · rw [decChars_ge n (by omega)]
      unfold ofDec
      rw [List.foldl_append]
      show 10 * ofDec (decChars (n / 10)) + decVal (Nat.digitChar (n % 10)) = n
      rw [ih (n / 10) (by omega), decVal_digitChar (n % 10) (by omega)]
      omega

theorem natRepr_injective (m n : Nat) (h : Nat.repr m = Nat.repr n) : m = n := by
  rw [repr_eq_decChars, repr_eq_decChars] at h
  have hd : decChars m = decChars n := congrArg String.data h
  calc m = ofDec (decChars m) := (ofDec_decChars m).symm
    _ = ofDec (decChars n) := by rw [hd]
    _ = n := ofDec_decChars n

theorem insertDescById_perm (a : Issue) (l : List Issue) :
    List.Perm (insertDescById a l) (a :: l) := by
  induction l with
  | nil => exact List.Perm.refl _
  | cons b l ih =>
    rw [insertDescById]
    split
    · exact List.Perm.refl _
    · exact (ih.cons b).trans (List.Perm.swap a b l)

theorem sortByIdDesc_perm (l : List Issue) :
    List.Perm (sortByIdDesc l) l := by
  induction l with
  | nil => exact List.Perm.refl _
  | cons a l ih =>
    exact (insertDescById_perm a (sortByIdDesc l)).trans (ih.cons a)

theorem insertDescById_pairwise (a : Issue) (l : List Issue)
    (h : l.Pairwise (fun x y => y.id ≤ x.id)) :
    (insertDescById a l).Pairwise (fun x y => y.id ≤ x.id) := by
  induction l with
  | nil => simp [insertDescById]
  | cons b l ih =>
    rcases List.pairwise_cons.mp h with ⟨hb, hl⟩
    rw [insertDescById]
    split
    case isTrue hba =>
      refine List.pairwise_cons.mpr ⟨?_, h⟩
      intro x hx
      rcases List.mem_cons.mp hx with rfl | hx
      · exact hba
      · exact le_trans (hb x hx) hba
    case isFalse hba =>
      refine List.pairwise_cons.mpr ⟨?_, ih hl⟩
      intro x hx
      rcases List.mem_cons.mp ((insertDescById_perm a l).mem_iff.mp hx) with rfl | hx
      · exact Nat.le_of_not_le hba
      · exact hb x hx

theorem sortByIdDesc_pairwise (l : List Issue) :
    (sortByIdDesc l).Pairwise (fun x y => y.id ≤ x.id) := by
  induction l with
  | nil => simp [sortByIdDesc]
  | cons a l ih => exact insertDescById_pairwise a (sortByIdDesc l) ih

theorem sortByIdDesc_pairwise_lt (l : List Issue)
    (h : (l.map Issue.id).Nodup) :
    (sortByIdDesc l).Pairwise (fun x y => y.id < x.id) := by
  have hne : l.Pairwise (fun x y : Issue => x.id ≠ y.id) :=
    (List.pairwise_map).mp h
  have hne2 : (sortByIdDesc l).Pairwise (fun x y : Issue => x.id ≠ y.id) :=
    ((sortByIdDesc_perm l).pairwise_iff (fun hxy => Ne.symm hxy)).mpr hne
  exact ((sortByIdDesc_pairwise l).and hne2).imp
    (fun hp => Nat.lt_of_le_of_ne hp.1 (Ne.symm hp.2))

theorem attachUsername_fst (users : List User) (i : Issue) :
    (attachUsername users i).1 = i := by
  rw [attachUsername]
  split <;> rfl

/-! ### Concrete fixtures used by witnesses and counterexamples -/

/-- A submitted issue as it lands in the store: the spec's example
scenario record. -/
def exIssue0 : Issue :=
  { id := 0, photo := "/uploads/1.jpg", location := "Main St",
    emailid := "a@x.com", category := "Pothole", issue := "road damage",
    description := "potholes everywhere", date := "1/1/2025",
    status := "pending" }

/-- A second issue by the same submitter, inserted after `exIssue0`. -/
def exIssue1 : Issue := { exIssue0 with id := 1 }

/-- A store holding one pending issue and no users. -/
def exStore1 : Store := { issues := [exIssue0], users := [], nextId := 1 }

/-- A store holding two pending issues in insertion order. -/
def exStore2 : Store := { issues := [exIssue0, exIssue1], users := [], nextId := 2 }

/-- The account matching `exIssue0.emailid`. -/
def exUser0 : User := { email := "a@x.com", name := "Alice", password := "pw" }

/-- A store holding one pending issue and its submitter's account. -/
def exStore3 : Store := { issues := [exIssue0], users := [exUser0], nextId := 1 }

/-- A request body that tries to smuggle in `status := "accepted"`. -/
def exReq : IssueReq :=
  { location := "Main St", emailid := "a@x.com", category := "Pothole",
    issue := "road damage", description := "potholes everywhere",
    status := some "accepted" }

/-- A stored-evidence URL. -/
def exUrl : String := "/uploads/2.jpg"

/-- A creation date stamp. -/
def exDate : String := "1/2/2025"

/-- A token-signing secret. -/
def exSecret : String := "jwt-secret"

/-- A token signed with the right secret but already expired at
instant 10. -/
def exBadToken : Token := { secret := "jwt-secret", role := "admin", exp := 5 }

/-- The aggregated record the read views produce for `exIssue0` when
Alice's account is present. -/
def exPair : Issue × String := (exIssue0, "Alice")

/-- The example submitter's email. -/
def exEmail : String := "a@x.com"

/-- An email no account carries. -/
def exGhostEmail : String := "ghost@x.com"

/-- A target status for a transition. -/
def exStatus : String := "accepted"

/-- A string outside the three-element status set. -/
def exRogueStatus : String := "garbage"

/-- An uploaded file's original name. -/
def exNameA : String := "a.jpg"

/-- A different original name with the same extension. -/
def exNameB : String := "b.jpg"

/-! ### The claims -/

/-- C1: every issue submission that reaches the store (a file was
attached and resolved to a non-empty URL) answers 201 and appends
exactly one issue whose `status` is the literal `"pending"`, for every
request body; moreover the outcome is unchanged under any caller-supplied
`status` field, so the caller cannot influence the created status. -/
theorem submission_always_pending (url : String) (req : IssueReq)
    (date : String) (st : Store) (h : url ≠ "") :
    (postIssues (some url) req date st).1 = 201 ∧
    (∃ newIssue : Issue,
      (postIssues (some url) req date st).2.issues = st.issues ++ [newIssue] ∧
      newIssue.status = "pending") ∧
    (∀ s : Option String,
      postIssues (some url) { req with status := s } date st =
        postIssues (some url) req date st) := by
  refine ⟨by simp [postIssues, h], ?_, fun s => rfl⟩
  exact ⟨{ id := st.nextId, photo := url, location := req.location,
           emailid := req.emailid, category := req.category,
           issue := req.issue, description := req.description,
           date := date, status := "pending" },
    by simp [postIssues, h], rfl⟩

/-- Witness for C1: the example submission with a smuggled
`status := "accepted"` lands as a pending issue. -/
theorem submission_always_pending_witness :
    exUrl ≠ "" ∧
    ((postIssues (some exUrl) exReq exDate exStore1).1 = 201 ∧
     (∃ newIssue : Issue,
       (postIssues (some exUrl) exReq exDate exStore1).2.issues =
         exStore1.issues ++ [newIssue] ∧
       newIssue.status = "pending") ∧
     (∀ s : Option String,
       postIssues (some exUrl) { exReq with status := s } exDate exStore1 =
         postIssues (some exUrl) exReq exDate exStore1)) :=
  ⟨by decide, submission_always_pending exUrl exReq exDate exStore1 (by decide)⟩

/-- C5: an issue submission with no file attached answers 400 and leaves
the store — in particular its issue collection and hence its document
count — untouched. -/
theorem submission_no_file_rejected (req : IssueReq) (date : String)
    (st : Store) :
    postIssues none req date st = (400, st) := rfl

/-- C4: a status transition on an `id` no stored issue carries answers
404 and modifies nothing; on an existing `id` it answers 200 and returns
a record whose `status` is exactly the caller-supplied string — with no
validation against the status set or the current state — that record
being the stored one, with the user collection untouched. -/
theorem patch_status_spec (idv : Nat) (s : String) (st : Store) :
    ((∀ i ∈ st.issues, i.id ≠ idv) →
      patchIssueStatus idv s st = (404, none, st)) ∧
    ((∃ i ∈ st.issues, i.id = idv) →
      ∃ j : Issue, (patchIssueStatus idv s st).1 = 200 ∧
        (patchIssueStatus idv s st).2.1 = some j ∧
        j.status = s ∧ j.id = idv ∧
        j ∈ (patchIssueStatus idv s st).2.2.issues ∧
        (patchIssueStatus idv s st).2.2.users = st.users) := by
  constructor
  · intro hnone
    have hf : st.issues.find? (fun i => i.id == idv) = none := by
      rw [List.find?_eq_none]
      intro i hi
      simpa using hnone i hi
    simp [patchIssueStatus, hf]
  · rintro ⟨i0, hi0, hid⟩
    have hsome : (st.issues.find? (fun i => i.id == idv)).isSome := by
      rw [List.find?_isSome]
      exact ⟨i0, hi0, by simpa using hid⟩
    obtain ⟨i1, hf⟩ := Option.isSome_iff_exists.mp hsome
    have hmem := List.mem_of_find?_eq_some hf
    have hp : (i1.id == idv) = true := by
      have := List.find?_some hf
      simpa using this
    have hid1 : i1.id = idv := by simpa using hp
    refine ⟨{ i1 with status := s }, ?_, ?_, rfl, hid1, ?_, ?_⟩
    · simp [patchIssueStatus, hf]
    · simp [patchIssueStatus, hf]
    · simp only [patchIssueStatus, hf]
      exact List.mem_map.mpr ⟨i1, hmem, by simp [hp]⟩
    · simp [patchIssueStatus, hf]

/-- Witness for C4: transitioning the stored pending issue to
`"accepted"` returns it with exactly that status. -/
theorem patch_status_spec_witness :
    (∃ i ∈ exStore1.issues, i.id = 0) ∧
    (∃ j : Issue, (patchIssueStatus 0 exStatus exStore1).1 = 200 ∧
      (patchIssueStatus 0 exStatus exStore1).2.1 = some j ∧
      j.status = exStatus ∧ j.id = 0 ∧
      j ∈ (patchIssueStatus 0 exStatus exStore1).2.2.issues ∧
      (patchIssueStatus 0 exStatus exStore1).2.2.users = exStore1.users) :=
  ⟨⟨exIssue0, by decide, by decide⟩,
    (patch_status_spec 0 exStatus exStore1).2 ⟨exIssue0, by decide, by decide⟩⟩

/-- C6: deleting a user by an email no account carries answers 404 and
touches nothing — in particular no issue is deleted; deleting an
existing user answers 200, removes one user record, and afterwards zero
issues remain whose `emailid` equals that email. -/
theorem delete_user_cascade (email : String) (st : Store) :
    ((∀ u ∈ st.users, u.email ≠ email) →
      deleteUserByEmail email st = (404, st)) ∧
    ((∃ u ∈ st.users, u.email = email) →
      (deleteUserByEmail email st).1 = 200 ∧
      (deleteUserByEmail email st).2.users.length + 1 = st.users.length ∧
      ∀ i ∈ (deleteUserByEmail email st).2.issues, i.emailid ≠ email) := by
  constructor
  · intro hnone
    have hf : st.users.find? (fun u => u.email == email) = none := by
      rw [List.find?_eq_none]
      intro u hu
      simpa using hnone u hu
    simp [deleteUserByEmail, hf]
  · rintro ⟨u0, hu0, hue⟩
    have hsome : (st.users.find? (fun u => u.email == email)).isSome := by
      rw [List.find?_isSome]
      exact ⟨u0, hu0, by simpa using hue⟩
    obtain ⟨u1, hf⟩ := Option.isSome_iff_exists.mp hsome
    have hmem := List.mem_of_find?_eq_some hf
    have hp : (u1.email == email) = true := by
      have := List.find?_some hf
      simpa using this
    refine ⟨by simp [deleteUserByEmail, hf], ?_, ?_⟩
    · simp only [deleteUserByEmail, hf]
      rw [List.length_eraseP_of_mem hmem hp]
      have hpos : 0 < st.users.length := List.length_pos_of_mem hmem
      omega
    · intro i hi
      simp only [deleteUserByEmail, hf] at hi
      have := List.of_mem_filter hi
      simpa using this

/-- Witness for C6: deleting the example account removes it and leaves
no issue carrying its email. -/
theorem delete_user_cascade_witness :
    (∃ u ∈ exStore3.users, u.email = exEmail) ∧
    ((deleteUserByEmail exEmail exStore3).1 = 200 ∧
     (deleteUserByEmail exEmail exStore3).2.users.length + 1 =
       exStore3.users.length ∧
     ∀ i ∈ (deleteUserByEmail exEmail exStore3).2.issues,
       i.emailid ≠ exEmail) :=
  ⟨⟨exUser0, by decide, by decide⟩,
    (delete_user_cascade exEmail exStore3).2 ⟨exUser0, by decide, by decide⟩⟩

theorem postIssues_some_issues (url : String) (req : IssueReq) (date : String)
    (st : Store) (h : ¬ url = "") :
    (postIssues (some url) req date st).2.issues =
      st.issues ++ [{ id := st.nextId, photo := url, location := req.location,
                      emailid := req.emailid, category := req.category,
                      issue := req.issue, description := req.description,
                      date := date, status := "pending" }] := by
  simp [postIssues, h]

/-- C2 counterexample: the reachable store holding one pending issue
satisfies the three-element-set invariant, but a status transition
carrying the string `"garbage"` — accepted unvalidated by the PATCH
handler — leaves a store that violates it. -/
theorem status_set_invariant_counterexample :
    statusOk exStore1 ∧
    ¬ statusOk (patchIssueStatus 0 exRogueStatus exStore1).2.2 := by
  constructor
  · decide
  · decide

/-- C2 as amended: every issue carries exactly one `status` string;
submission (with or without a file) and cascading user deletion preserve
membership of every stored status in {pending, accepted, rejected}, and
a status transition preserves it when the caller-supplied status belongs
to that set — but not in general, since the handler stores any string
verbatim. -/
theorem status_set_invariant_amended (st : Store) (h : statusOk st) :
    (∀ url req date, statusOk (postIssues (some url) req date st).2) ∧
    (∀ req date, statusOk (postIssues none req date st).2) ∧
    (∀ email, statusOk (deleteUserByEmail email st).2) ∧
    (∀ idv s, s ∈ statusSet → statusOk (patchIssueStatus idv s st).2.2) := by
  refine ⟨?_, ?_, ?_, ?_⟩
  · intro url req date i hi
    by_cases hu : url = ""
    · rw [show postIssues (some url) req date st = (500, st) by
        simp [postIssues, hu]] at hi
      exact h i hi
    · rw [postIssues_some_issues url req date st hu] at hi
      rcases List.mem_append.mp hi with hmem | hmem
      · exact h i hmem
      · rw [List.mem_singleton] at hmem
        subst hmem
        show ("pending" : String) ∈ statusSet
        decide
  · intro req date i hi
    exact h i hi
  · intro email i hi
    rcases hfind : st.users.find? (fun u => u.email == email) with _ | u
    · simp only [deleteUserByEmail, hfind] at hi
      exact h i hi
    · simp only [deleteUserByEmail, hfind] at hi
      exact h i (List.mem_of_mem_filter hi)
  · intro idv s hs i hi
    rcases hfind : st.issues.find? (fun j => j.id == idv) with _ | j
    · simp only [patchIssueStatus, hfind] at hi
      exact h i hi
    · simp only [patchIssueStatus, hfind] at hi
      rcases List.mem_map.mp hi with ⟨k, hk, hki⟩
      by_cases hkid : (k.id == idv) = true
      · simp only [hkid, if_true] at hki
        subst hki
        exact hs
      · simp only [hkid, if_false] at hki
        subst hki
        exact h k hk

/-- Witness for the amended C2: transitioning the example store's issue
to `"accepted"` keeps every stored status inside the set. -/
theorem status_set_invariant_amended_witness :
    statusOk exStore1 ∧ statusOk (patchIssueStatus 0 exStatus exStore1).2.2 :=
  ⟨by decide,
    (status_set_invariant_amended exStore1 (by decide)).2.2.2 0 exStatus
      (by decide)⟩

/-- C3 counterexample: the claim's own sources include the legacy
variant's `PATCH /api/issues/:id/status` handler
(`src/unnamed/part_000` lines 237-252), registered with no gate: a
request carrying no `Authorization` header does not fail with 401 —
it answers 200 and the protected handler runs, mutating the store. -/
theorem admin_gate_counterexample :
    serveLegacy Auth.noHeader (LegacyRoute.patchStatus 0 exStatus) exStore1 ≠
      (401, exStore1) ∧
    (serveLegacy Auth.noHeader
      (LegacyRoute.patchStatus 0 exStatus) exStore1).1 = 200 ∧
    (serveLegacy Auth.noHeader
      (LegacyRoute.patchStatus 0 exStatus) exStore1).2 ≠ exStore1 :=
  ⟨by decide, by decide, by decide⟩

/-- C3 as amended: in the `src/backend/server.js` variant every
moderation-sensitive route is gated — a request with no `Authorization`
header answers 401 and one whose bearer token fails verification (wrong
signature or expired) answers 403, each leaving the store untouched, so
the protected handler never runs; in the legacy variant
`src/unnamed/part_000` the same moderation handlers are registered with
no gate, so the response is the handler's own and is independent of
whatever `Authorization` header the request carries. -/
theorem admin_gate_blocks_amended (secret : String) (now : Nat) (st : Store) :
    (∀ r : AdminRoute,
      serveAdmin secret now Auth.noHeader r st = (401, st) ∧
      (∀ t : Token, verifyToken secret now t = false →
        serveAdmin secret now (Auth.bearer t) r st = (403, st))) ∧
    (∀ (a : Auth) (r : LegacyRoute),
      serveLegacy a r st = handleLegacy r st ∧
      serveLegacy a r st = serveLegacy Auth.noHeader r st) := by
  refine ⟨fun r => ⟨rfl, fun t ht => ?_⟩, fun a r => ⟨rfl, rfl⟩⟩
  simp [serveAdmin, ht]

/-- Witness for the amended C3: the expired token is turned away with
403 from the gated listing and the header-less request with 401, while
the legacy ungated deletion runs despite the missing header. -/
theorem admin_gate_blocks_amended_witness :
    verifyToken exSecret 10 exBadToken = false ∧
    serveAdmin exSecret 10 Auth.noHeader AdminRoute.listIssues exStore1 =
      (401, exStore1) ∧
    serveAdmin exSecret 10 (Auth.bearer exBadToken) AdminRoute.listIssues
      exStore1 = (403, exStore1) ∧
    serveLegacy Auth.noHeader (LegacyRoute.delUser exEmail) exStore3 =
      handleLegacy (LegacyRoute.delUser exEmail) exStore3 :=
  ⟨by decide,
    ((admin_gate_blocks_amended exSecret 10 exStore1).1 AdminRoute.listIssues).1,
    ((admin_gate_blocks_amended exSecret 10 exStore1).1 AdminRoute.listIssues).2
      exBadToken (by decide),
    ((admin_gate_blocks_amended exSecret 10 exStore3).2 Auth.noHeader
      (LegacyRoute.delUser exEmail)).1⟩

theorem filterMapIdNodup (p : Issue → Bool) (l : List Issue)
    (h : (l.map Issue.id).Nodup) : ((l.filter p).map Issue.id).Nodup := by
  have h1 : l.Pairwise (fun a b => a.id ≠ b.id) := List.pairwise_map.mp h
  have h2 : (l.filter p).Pairwise (fun a b => a.id ≠ b.id) :=
    h1.sublist (List.filter_sublist l)
  exact List.pairwise_map.mpr h2

theorem map_attach_pairwise_lt (users : List User) (l : List Issue)
    (h : (l.map Issue.id).Nodup) :
    ((sortByIdDesc l).map (attachUsername users)).Pairwise
      (fun p q => q.1.id < p.1.id) := by
  rw [List.pairwise_map]
  exact (sortByIdDesc_pairwise_lt l h).imp
    (fun hab => by rwa [attachUsername_fst, attachUsername_fst])

/-- C7 counterexample: `GET /pending` is an issue-listing endpoint, yet
on the reachable store holding two pending issues it returns them in
insertion order — ascending `id` — not strictly descending. -/
theorem listing_sorted_counterexample :
    ¬ (getPending exStore2).Pairwise (fun a b => b.id < a.id) := by
  decide

/-- C7 as amended: the four aggregated listing endpoints — all issues,
by status, by submitter (with or without a status filter), accepted —
return issues in strictly descending `id` whenever stored ids are
distinct (which the store guarantees); `GET /pending` applies no sort
and answers in store order. -/
theorem listing_sorted_amended (st : Store)
    (h : (st.issues.map Issue.id).Nodup) :
    (getIssues st).Pairwise (fun p q => q.1.id < p.1.id) ∧
    (∀ s, (getIssuesByStatus s st).Pairwise (fun p q => q.1.id < p.1.id)) ∧
    (∀ e os, (getIssuesByUser e os st).Pairwise (fun p q => q.1.id < p.1.id)) ∧
    (getIssuesAccepted st).Pairwise (fun p q => q.1.id < p.1.id) := by
  refine ⟨?_, ?_, ?_, ?_⟩
  · exact map_attach_pairwise_lt st.users st.issues h
  · intro s
    exact map_attach_pairwise_lt st.users _ (filterMapIdNodup _ _ h)
  · intro e os
    rcases os with _ | s
    · exact map_attach_pairwise_lt st.users
        (st.issues.filter (fun i => i.emailid == e)) (filterMapIdNodup _ _ h)
    · by_cases hs : s = ""
      · subst hs
        exact map_attach_pairwise_lt st.users
          (st.issues.filter (fun i => i.emailid == e)) (filterMapIdNodup _ _ h)
      · have hred : getIssuesByUser e (some s) st =
            (sortByIdDesc ((st.issues.filter (fun i => i.emailid == e)).filter
              (fun i => i.status == s))).map (attachUsername st.users) := by
          simp [getIssuesByUser, hs]
        rw [hred]
        exact map_attach_pairwise_lt st.users _
          (filterMapIdNodup _ _ (filterMapIdNodup _ _ h))
  · exact map_attach_pairwise_lt st.users _ (filterMapIdNodup _ _ h)

/-- Witness for the amended C7: on the two-issue store every aggregated
view comes back strictly descending. -/
theorem listing_sorted_amended_witness :
    (exStore2.issues.map Issue.id).Nodup ∧
    ((getIssues exStore2).Pairwise (fun p q => q.1.id < p.1.id) ∧
     (∀ s, (getIssuesByStatus s exStore2).Pairwise
        (fun p q => q.1.id < p.1.id)) ∧
     (∀ e os, (getIssuesByUser e os exStore2).Pairwise
        (fun p q => q.1.id < p.1.id)) ∧
     (getIssuesAccepted exStore2).Pairwise (fun p q => q.1.id < p.1.id)) :=
  ⟨by decide, listing_sorted_amended exStore2 (by decide)⟩

theorem mem_map_attach (users : List User) (l : List Issue)
    (p : Issue × String) (hp : p ∈ l.map (attachUsername users)) :
    p.2 = (attachUsername users p.1).2 := by
  rcases List.mem_map.mp hp with ⟨i, _, rfl⟩
  rw [attachUsername_fst]

theorem attachUsername_spec (users : List User) (i : Issue) :
    ((∃ u ∈ users, u.email = i.emailid) →
      ∃ u ∈ users, u.email = i.emailid ∧ (attachUsername users i).2 = u.name) ∧
    ((∀ u ∈ users, u.email ≠ i.emailid) →
      (attachUsername users i).2 = "Anonymous User") := by
  constructor
  · intro hex
    have hsome : (users.find? (fun u => u.email == i.emailid)).isSome := by
      rw [List.find?_isSome]
      rcases hex with ⟨u, hu, he⟩
      exact ⟨u, hu, by simpa using he⟩
    obtain ⟨u1, hf⟩ := Option.isSome_iff_exists.mp hsome
    have hmem := List.mem_of_find?_eq_some hf
    have hp : (u1.email == i.emailid) = true := by
      have := List.find?_some hf
      simpa using this
    refine ⟨u1, hmem, by simpa using hp, ?_⟩
    simp [attachUsername, hf]
  · intro hall
    have hf : users.find? (fun u => u.email == i.emailid) = none := by
      rw [List.find?_eq_none]
      intro u hu
      simpa using hall u hu
    simp [attachUsername, hf]

/-- C8: every record an aggregated read view returns carries, beside the
issue, a `username` that is the `name` of an account matching the
issue's `emailid` when one exists, and the literal `"Anonymous User"`
otherwise — in all four aggregated views. -/
theorem aggregation_username (st : Store) (p : Issue × String)
    (h : p ∈ getIssues st ∨ (∃ s, p ∈ getIssuesByStatus s st) ∨
      (∃ e os, p ∈ getIssuesByUser e os st) ∨ p ∈ getIssuesAccepted st) :
    ((∃ u ∈ st.users, u.email = p.1.emailid) →
      ∃ u ∈ st.users, u.email = p.1.emailid ∧ p.2 = u.name) ∧
    ((∀ u ∈ st.users, u.email ≠ p.1.emailid) → p.2 = "Anonymous User") := by
  have hsnd : p.2 = (attachUsername st.users p.1).2 := by
    rcases h with h | ⟨s, h⟩ | ⟨e, os, h⟩ | h
    · simp only [getIssues] at h
      exact mem_map_attach _ _ _ h
    · simp only [getIssuesByStatus] at h
      exact mem_map_attach _ _ _ h
    · rcases os with _ | s2
      · simp only [getIssuesByUser] at h
        exact mem_map_attach _ _ _ h
      · by_cases hs : s2 = ""
        · subst hs
          simp only [getIssuesByUser] at h
          exact mem_map_attach _ _ _ h
        · have hred : getIssuesByUser e (some s2) st =
              (sortByIdDesc ((st.issues.filter (fun i => i.emailid == e)).filter
                (fun i => i.status == s2))).map (attachUsername st.users) := by
            simp [getIssuesByUser, hs]
          rw [hred] at h
          exact mem_map_attach _ _ _ h
    · simp only [getIssuesAccepted] at h
      exact mem_map_attach _ _ _ h
  rw [hsnd]
  exact attachUsername_spec st.users p.1

/-- Witness for C8: the store holding Alice's account and her issue
lists that issue with `username = "Alice"`. -/
theorem aggregation_username_witness :
    exPair ∈ getIssues exStore3 ∧
    (∃ u ∈ exStore3.users, u.email = exPair.1.emailid ∧ exPair.2 = u.name) :=
  ⟨by decide,
    (aggregation_username exStore3 exPair (Or.inl (by decide))).1
      ⟨exUser0, by decide, by decide⟩⟩

/-- C9 counterexample: two distinct uploads handled within the same
millisecond whose original names share the extension `.jpg` receive the
same stored name — `Date.now()` plus the extension carries no
distinguishing entropy — so the later write overwrites the earlier. -/
theorem stored_name_collision :
    storedName 1700000000000 exNameA = storedName 1700000000000 exNameB ∧
    exNameA ≠ exNameB := by
  exact ⟨rfl, by decide⟩

/-- C9 as amended: the stored name distinguishes uploads only through
their millisecond timestamps — two uploads whose `Date.now()` values
differ (and whose original names carry the same extension) receive
distinct stored names, while uploads in the same millisecond with the
same extension collide and overwrite. -/
theorem stored_name_distinct_amended (t1 t2 : Nat) (n1 n2 : String)
    (ht : t1 ≠ t2) (he : extname n1 = extname n2) :
    storedName t1 n1 ≠ storedName t2 n2 := by
  intro hcon
  apply ht
  apply natRepr_injective
  apply String.ext
  unfold storedName at hcon
  rw [he] at hcon
  have hdata := congrArg String.data hcon
  rw [String.data_append, String.data_append] at hdata
  exact List.append_cancel_right hdata

/-- Witness for the amended C9: uploads at instants 1 and 2 with the
same original name get distinct stored names. -/
theorem stored_name_distinct_amended_witness :
    ((1 : Nat) ≠ 2 ∧ extname exNameA = extname exNameA) ∧
    storedName 1 exNameA ≠ storedName 2 exNameA :=
  ⟨⟨by decide, rfl⟩,
    stored_name_distinct_amended 1 2 exNameA exNameA (by decide) rfl⟩

/-- C10: `GET /pending` answers, for every store, exactly the issues
whose `status` is `"pending"` — membership in the response is membership
in the store with pending status — and the response is a sublist of the
store's insertion order: no descending-id sort is applied and no
`username` field is attached (the response type is the raw record). -/
theorem pending_endpoint_raw (st : Store) :
    (∀ i : Issue, i ∈ getPending st ↔ (i ∈ st.issues ∧ i.status = "pending")) ∧
    List.Sublist (getPending st) st.issues := by
  constructor
  · intro i
    simp [getPending, List.mem_filter]
  · exact List.filter_sublist st.issues

/-- Witness for C10: on the two-issue store the pending view keeps the
first stored issue and preserves store order. -/
theorem pending_endpoint_raw_witness :
    (exIssue0 ∈ getPending exStore2 ↔
      (exIssue0 ∈ exStore2.issues ∧ exIssue0.status = "pending")) ∧
    List.Sublist (getPending exStore2) exStore2.issues :=
  ⟨(pending_endpoint_raw exStore2).1 exIssue0, (pending_endpoint_raw exStore2).2⟩

end CivicTrack
